import Mathlib

/-!
Verification development for `src/news_search_agent/agent_BrightData_MCP.py`.

The file under verification is configuration glue around one interesting
fragment: a lazily-initialized, lock-guarded connection to an external MCP
tool subprocess, shared by concurrent asyncio tasks through five module-level
globals (`_mcp_tools`, `_exit_stack`, `_initialized`,
`_initialization_in_progress`, `_init_lock`), together with the
`before_model_callback` hook `check_news_researcher_tools` and the
`atexit`-registered `cleanup_mcp` closure.

Embedding notes.
* Tool handles and the async exit stack are opaque to this module; they are
  modelled by natural-number identifiers.
* `initialize_mcp_tools_async` is an `async def` whose only suspension points
  are `await asyncio.sleep(0.1)` (inside the waiter poll loop) and
  `await MCPToolset.from_server(...)` (the connection attempt).  Everything
  between two suspension points runs atomically with respect to other asyncio
  tasks, so the coroutine is embedded as a small-step transition function
  `init_mcp_tools_step` over per-task program locations `Loc`, with one
  location per suspension point.  The outcome of the external connection call
  (`MCPToolset.from_server` returning a tool list and exit stack, or raising)
  is a parameter `ConnOutcome` of the step at location `Loc.conn`.
* `_init_lock` is a `threading.Lock`; its holder is recorded in the state.  A
  task whose next action is a lock acquisition while the lock is held has no
  enabled step (in the real program a blocking acquire on the event-loop
  thread is even more severe: it blocks the whole loop).
* The ghost field `attempts` counts how many times a task has committed the
  check-then-set of `_initialization_in_progress` and proceeded to the
  `MCPToolset.from_server` call, i.e. how many connection attempts (subprocess
  launches) have been started.
* `check_news_researcher_tools` contains no `await`, so it is embedded as an
  atomic function from the agent name and the global state to its returned
  override plus a flag recording whether it scheduled
  (`loop.create_task`) a background initialization task.
-/

/-- Tool handles (`MCPToolset` tools) are opaque capabilities; modelled by
natural-number identifiers. -/
abbrev Tool := Nat

/-- The `AsyncExitStack` returned by `MCPToolset.from_server`; opaque,
modelled by a natural-number identifier. -/
abbrev ExitStack := Nat

/-- The module-level globals of `agent_BrightData_MCP.py`.
`mcp_tools` is `_mcp_tools` (initially `None`, hence `Option`),
`exit_stack` is `_exit_stack`, `inited` is `_initialized`,
`in_progress` is `_initialization_in_progress`, `lock` records the task id
holding `_init_lock` (`none` = free), `attempts` is a ghost counter of
connection attempts started, `researcher_tools` is the `tools` list of the
`news_researcher` agent instance (created with `tools=[]`), and
`cleanup_registered` records the `atexit.register(cleanup_mcp)` call. -/
structure GState where
  mcp_tools : Option (List Tool)
  exit_stack : Option ExitStack
  inited : Bool
  in_progress : Bool
  lock : Option Nat
  attempts : Nat
  researcher_tools : List Tool
  cleanup_registered : Bool
deriving DecidableEq

/-- The global state at module load time (lines 20-24 of the source). -/
def initGS : GState :=
  { mcp_tools := none, exit_stack := none, inited := false, in_progress := false,
    lock := none, attempts := 0, researcher_tools := [], cleanup_registered := false }

/-- Outcome of the awaited `MCPToolset.from_server` call: either a tool list
and exit stack, or an exception. -/
inductive ConnOutcome where
  | ok (tools : List Tool) (stack : ExitStack)
  | err
deriving DecidableEq

/-- Program locations of one task running `initialize_mcp_tools_async`,
one per suspension point:
`start` = at function entry (the code through the `with _init_lock:` block is
atomic, since it contains no `await`);
`poll` = suspended at `await asyncio.sleep(0.1)` inside the waiter loop,
still holding `_init_lock`;
`conn` = suspended at `await MCPToolset.from_server(...)`;
`done ret` = returned with value `ret` (`none` models Python `None`). -/
inductive Loc where
  | start
  | poll
  | conn
  | done (ret : Option (List Tool))
deriving DecidableEq

/-- Small-step embedding of `initialize_mcp_tools_async` (lines 104-189).
Given the shared globals `gs`, the id `tid` of the executing task, its
location, and the outcome the connection call would have, produce the new
globals and location, or `none` when the task has no enabled step (it is
blocked acquiring `_init_lock`, or already returned). -/
def init_mcp_tools_step (gs : GState) (tid : Nat) (loc : Loc) (o : ConnOutcome) :
    Option (GState × Loc) :=
  match loc with
  | Loc.start =>
    -- line 108: fast path, checked without the lock
    if gs.inited then
      some (gs, Loc.done gs.mcp_tools)
    else
      -- line 112: `with _init_lock:` — blocking acquire
      match gs.lock with
      | some _ => none
      | none =>
        -- lines 113-124, atomic while the lock is held
        if gs.inited then
          some (gs, Loc.done gs.mcp_tools)        -- line 113: re-check after lock
        else if gs.in_progress then
          some ({ gs with lock := some tid }, Loc.poll)  -- lines 116-119: wait loop
        else
          -- line 124: set `_initialization_in_progress = True`, release the
          -- lock at the end of the `with` block, and proceed to the
          -- `await MCPToolset.from_server` call (an attempt starts)
          some ({ gs with in_progress := true, attempts := gs.attempts + 1 }, Loc.conn)
  | Loc.poll =>
    -- lines 118-121: `while _initialization_in_progress: await asyncio.sleep(0.1)`
    if gs.in_progress then
      some (gs, Loc.poll)
    else
      some ({ gs with lock := none }, Loc.done gs.mcp_tools)
  | Loc.conn =>
    match o with
    | ConnOutcome.ok tools stack =>
      -- lines 139-181: store tools and exit stack, register cleanup, set
      -- `_initialized = True`, assign tools to the news_researcher agent,
      -- then `finally:` resets the in-progress flag; return `_mcp_tools`
      some ({ gs with mcp_tools := some tools, exit_stack := some stack,
                      cleanup_registered := true, inited := true,
                      researcher_tools := tools, in_progress := false },
            Loc.done (some tools))
    | ConnOutcome.err =>
      -- lines 183-189: `_mcp_tools = []`, return None; `finally:` resets flag
      some ({ gs with mcp_tools := some [], in_progress := false }, Loc.done none)
  | Loc.done _ => none

/-- The canned `LlmResponse` payloads returned by
`check_news_researcher_tools`. -/
inductive CannedResponse where
  | retryMsg
  | waitMsg
  | degradedMsg
deriving DecidableEq

/-- The text of each canned response in the source. -/
def responseText : CannedResponse → String
  | CannedResponse.retryMsg =>
      "Initializing news research tools. This process happens once. Please try your query again in a few moments."
  | CannedResponse.waitMsg =>
      "News research tool initialization is currently in progress. Please wait a moment and try again."
  | CannedResponse.degradedMsg =>
      "There was an issue initializing news research tools. Please check the logs."

/-- The stage name the callback guards (the `news_researcher` agent). -/
def researcherName : String := "news_researcher"

/-- Python truth-value test `not _mcp_tools`: true for `None` and `[]`. -/
def toolsFalsy : Option (List Tool) → Bool
  | none => true
  | some [] => true
  | some (_ :: _) => false

/-- The observable result of one `check_news_researcher_tools` call:
the returned override (`none` models Python `None`, i.e. the stage runs),
whether a background `initialize_mcp_tools_async` task was scheduled via
`loop.create_task`, and the global state afterwards. -/
structure CheckResult where
  response : Option CannedResponse
  spawned : Bool
  gs : GState
deriving DecidableEq

/-- Embedding of `check_news_researcher_tools` (lines 191-228).  The function
contains no `await`, so it is a single atomic step on the globals.  (The
`get_running_loop` / `new_event_loop` fallback only selects which loop the
task is scheduled on; it is scheduled either way.) -/
def check_news_researcher_tools (agent_name : String) (gs : GState) : CheckResult :=
  if agent_name = researcherName then
    if !gs.inited && !gs.in_progress then
      { response := some CannedResponse.retryMsg, spawned := true, gs := gs }
    else if gs.in_progress then
      { response := some CannedResponse.waitMsg, spawned := false, gs := gs }
    else if gs.inited && toolsFalsy gs.mcp_tools then
      { response := some CannedResponse.degradedMsg, spawned := false, gs := gs }
    else
      { response := none, spawned := false, gs := gs }
  else
    { response := none, spawned := false, gs := gs }

/-- Outcome of `_exit_stack.aclose()` during cleanup: it completes or raises. -/
inductive AcloseOutcome where
  | ok
  | raised
deriving DecidableEq

/-- Embedding of the `atexit`-registered `cleanup_mcp` closure
(lines 145-162).  Input: the current `_exit_stack` and the environment
(whether an event loop is running, and whether `aclose` raises).  Output:
whether a teardown was performed, and the new `_exit_stack`.  The `finally:`
block clears `_exit_stack` in every outcome, and exceptions are caught. -/
def cleanup_mcp (exit_stack : Option ExitStack) (_loop_running : Bool)
    (_o : AcloseOutcome) : Bool × Option ExitStack :=
  match exit_stack with
  | none => (false, none)      -- `if _exit_stack:` is falsy: no operation
  | some _ => (true, none)     -- teardown attempted; `finally: _exit_stack = None`

/-- The pool of asyncio tasks running `initialize_mcp_tools_async`,
as an association list from task id to location. -/
abbrev Tasks := List (Nat × Loc)

/-- Location of task `tid` in the pool (first match). -/
def getLoc : Tasks → Nat → Option Loc
  | [], _ => none
  | (i, l) :: ts, tid => if i = tid then some l else getLoc ts tid

/-- Update the location of task `tid` in the pool. -/
def setLoc (ts : Tasks) (tid : Nat) (l : Loc) : Tasks :=
  ts.map (fun q => if q.1 = tid then (q.1, l) else q)

/-- A configuration of the concurrent system: the shared globals plus the
task pool. -/
structure Config where
  gs : GState
  tasks : Tasks
deriving DecidableEq

/-- Interleaving semantics: one enabled task takes one atomic step of
`initialize_mcp_tools_async`. -/
inductive Step : Config → Config → Prop where
  | task (c : Config) (tid : Nat) (loc : Loc) (o : ConnOutcome)
      (gs' : GState) (loc' : Loc)
      (hget : getLoc c.tasks tid = some loc)
      (hstep : init_mcp_tools_step c.gs tid loc o = some (gs', loc')) :
      Step c { gs := gs', tasks := setLoc c.tasks tid loc' }

/-- Reachability in the interleaving semantics. -/
def Reach : Config → Config → Prop :=
  Relation.ReflTransGen Step

/-- Every task suspended at the connection call sees the in-progress flag
set: part of the inductive invariant for the single-attempt property. -/
def ConnImpliesFlag (c : Config) : Prop :=
  ∀ p ∈ c.tasks, p.2 = Loc.conn → c.gs.in_progress = true

/-- At most one task is suspended at the connection call, i.e. at most one
connection attempt (subprocess launch) is in flight. -/
def AtMostOneConn (c : Config) : Prop :=
  ∀ p ∈ c.tasks, ∀ q ∈ c.tasks, p.2 = Loc.conn → q.2 = Loc.conn → p.1 = q.1

/-- Globals after a winning task committed the check-then-set and moved to
the connection call (one step of task 0 from `initGS`). -/
def gsA : GState := { initGS with in_progress := true, attempts := 1 }

/-- Globals after that first connection attempt raised:
`_mcp_tools = []`, flag reset, `_initialized` still `False`. -/
def gsB : GState := { gsA with mcp_tools := some [], in_progress := false }

/-- Globals after a second caller then committed a second attempt. -/
def gsC : GState := { gsB with in_progress := true, attempts := 2 }

/-- Globals of a successfully initialized module (three cached tools). -/
def gsReady : GState :=
  { initGS with mcp_tools := some [10, 11, 12], exit_stack := some 7,
                inited := true, researcher_tools := [10, 11, 12],
                cleanup_registered := true }

/-- If `getLoc` finds task `tid` at location `l`, the pair is in the pool. -/
theorem getLoc_mem {ts : Tasks} {tid : Nat} {l : Loc}
    (h : getLoc ts tid = some l) : (tid, l) ∈ ts := by
  induction ts with
  | nil => simp [getLoc] at h
  | cons p ts ih =>
    obtain ⟨i, l0⟩ := p
    by_cases hi : i = tid
    · subst hi
      simp [getLoc] at h
      subst h
      exact List.mem_cons_self _ _
    · rw [getLoc, if_neg hi] at h
      exact List.mem_cons_of_mem _ (ih h)

/-- Members of an updated pool: either the updated task, or an untouched
member of the old pool. -/
theorem mem_setLoc {p : Nat × Loc} {ts : Tasks} {tid : Nat} {l : Loc}
    (h : p ∈ setLoc ts tid l) :
    (p.1 = tid ∧ p.2 = l) ∨ (p.1 ≠ tid ∧ p ∈ ts) := by
  unfold setLoc at h
  rcases List.mem_map.mp h with ⟨q, hq, hpq⟩
  by_cases hqt : q.1 = tid
  · rw [if_pos hqt] at hpq
    subst hpq
    exact Or.inl ⟨hqt, rfl⟩
  · rw [if_neg hqt] at hpq
    subst hpq
    exact Or.inr ⟨hqt, hq⟩

/-- A step presented with the target configuration given explicitly. -/
theorem Step.of_eq {c c' : Config} (tid : Nat) (loc : Loc) (o : ConnOutcome)
    (gs' : GState) (loc' : Loc)
    (hget : getLoc c.tasks tid = some loc)
    (hstep : init_mcp_tools_step c.gs tid loc o = some (gs', loc'))
    (heq : c' = { gs := gs', tasks := setLoc c.tasks tid loc' }) : Step c c' := by
  subst heq
  exact Step.task c tid loc o gs' loc' hget hstep

/-- Steps that move a task somewhere other than the connection call and do
not change the in-progress flag preserve both invariant components. -/
theorem preserve_aux {gs gs' : GState} {ts : Tasks} {tid : Nat} {loc' : Loc}
    (hno : loc' ≠ Loc.conn) (hip : gs'.in_progress = gs.in_progress)
    (h1 : ConnImpliesFlag { gs := gs, tasks := ts })
    (h2 : AtMostOneConn { gs := gs, tasks := ts }) :
    ConnImpliesFlag { gs := gs', tasks := setLoc ts tid loc' } ∧
    AtMostOneConn { gs := gs', tasks := setLoc ts tid loc' } := by
  constructor
  · intro p hp hpc
    rcases mem_setLoc hp with ⟨_, hploc⟩ | ⟨_, hpts⟩
    · exact absurd (hploc ▸ hpc) hno
    · exact hip.trans (h1 p hpts hpc)
  · intro p hp q hq hpc hqc
    rcases mem_setLoc hp with ⟨_, hploc⟩ | ⟨_, hpts⟩
    · exact absurd (hploc ▸ hpc) hno
    rcases mem_setLoc hq with ⟨_, hqloc⟩ | ⟨_, hqts⟩
    · exact absurd (hqloc ▸ hqc) hno
    exact h2 p hpts q hqts hpc hqc


/-- One interleaving step preserves the single-attempt invariant. -/
theorem step_inv {c c' : Config} (h : Step c c')
    (hc1 : ConnImpliesFlag c) (hc2 : AtMostOneConn c) :
    ConnImpliesFlag c' ∧ AtMostOneConn c' := by
  obtain ⟨tid, loc, o, gs', loc', hget, hstep⟩ := h
  obtain ⟨gs, ts⟩ := c
  cases loc with
  | start =>
    simp only [init_mcp_tools_step] at hstep
    by_cases hi : gs.inited = true
    · rw [if_pos hi] at hstep
      simp only [Option.some.injEq, Prod.mk.injEq] at hstep
      obtain ⟨hgs, hloc⟩ := hstep
      subst hgs; subst hloc
      exact preserve_aux (by simp) rfl hc1 hc2
    · rw [if_neg hi] at hstep
      cases hl : gs.lock with
      | some k => rw [hl] at hstep; cases hstep
      | none =>
        rw [hl, if_neg hi] at hstep
        by_cases hp : gs.in_progress = true
        · rw [if_pos hp] at hstep
          simp only [Option.some.injEq, Prod.mk.injEq] at hstep
          obtain ⟨hgs, hloc⟩ := hstep
          subst hgs; subst hloc
          exact preserve_aux (by simp) rfl hc1 hc2
        · rw [if_neg hp] at hstep
          simp only [Option.some.injEq, Prod.mk.injEq] at hstep
          obtain ⟨hgs, hloc⟩ := hstep
          subst hgs; subst hloc
          constructor
          · intro p _ _; rfl
          · intro p hp' q hq' hpc hqc
            rcases mem_setLoc hp' with ⟨hpt, _⟩ | ⟨_, hpts⟩
            · rcases mem_setLoc hq' with ⟨hqt, _⟩ | ⟨_, hqts⟩
              · exact hpt.trans hqt.symm
              · exact absurd (hc1 q hqts hqc) hp
            · exact absurd (hc1 p hpts hpc) hp
  | poll =>
    simp only [init_mcp_tools_step] at hstep
    by_cases hp : gs.in_progress = true
    · rw [if_pos hp] at hstep
      simp only [Option.some.injEq, Prod.mk.injEq] at hstep
      obtain ⟨hgs, hloc⟩ := hstep
      subst hgs; subst hloc
      exact preserve_aux (by simp) rfl hc1 hc2
    · rw [if_neg hp] at hstep
      simp only [Option.some.injEq, Prod.mk.injEq] at hstep
      obtain ⟨hgs, hloc⟩ := hstep
      subst hgs; subst hloc
      exact preserve_aux (by simp) rfl hc1 hc2
  | conn =>
    have hmem : (tid, Loc.conn) ∈ ts := getLoc_mem hget
    have hld : loc' ≠ Loc.conn := by
      simp only [init_mcp_tools_step] at hstep
      cases o with
      | ok tools stack =>
        simp only [Option.some.injEq, Prod.mk.injEq] at hstep
        rw [← hstep.2]; simp
      | err =>
        simp only [Option.some.injEq, Prod.mk.injEq] at hstep
        rw [← hstep.2]; simp
    have hnoconn : ∀ p ∈ setLoc ts tid loc', p.2 ≠ Loc.conn := by
      intro p hp hpc
      rcases mem_setLoc hp with ⟨_, hploc⟩ | ⟨hpt, hpts⟩
      · exact hld (hploc ▸ hpc)
      · exact hpt (hc2 p hpts (tid, Loc.conn) hmem hpc rfl)
    constructor
    · intro p hp hpc; exact absurd hpc (hnoconn p hp)
    · intro p hp q hq hpc _; exact absurd hpc (hnoconn p hp)
  | done r => simp only [init_mcp_tools_step] at hstep; exact absurd hstep (by simp)

/-- Reachability preserves the single-attempt invariant. -/
theorem reach_inv {c c' : Config} (h : Reach c c')
    (h1 : ConnImpliesFlag c) (h2 : AtMostOneConn c) :
    ConnImpliesFlag c' ∧ AtMostOneConn c' := by
  induction h with
  | refl => exact ⟨h1, h2⟩
  | tail _ hs ih => exact step_inv hs ih.1 ih.2

/-- After `_initialized` is set, every step keeps it set and starts no new
connection attempt (the ghost counter is unchanged). -/
theorem step_after_ready {c c' : Config} (h : Step c c')
    (hi : c.gs.inited = true) :
    c'.gs.inited = true ∧ c'.gs.attempts = c.gs.attempts := by
  obtain ⟨tid, loc, o, gs', loc', hget, hstep⟩ := h
  obtain ⟨gs, ts⟩ := c
  cases loc with
  | start =>
    simp only [init_mcp_tools_step] at hstep
    rw [if_pos hi] at hstep
    simp only [Option.some.injEq, Prod.mk.injEq] at hstep
    obtain ⟨hgs, _⟩ := hstep
    subst hgs
    exact ⟨hi, rfl⟩
  | poll =>
    simp only [init_mcp_tools_step] at hstep
    by_cases hp : gs.in_progress = true
    · rw [if_pos hp] at hstep
      simp only [Option.some.injEq, Prod.mk.injEq] at hstep
      obtain ⟨hgs, _⟩ := hstep
      subst hgs
      exact ⟨hi, rfl⟩
    · rw [if_neg hp] at hstep
      simp only [Option.some.injEq, Prod.mk.injEq] at hstep
      obtain ⟨hgs, _⟩ := hstep
      subst hgs
      exact ⟨hi, rfl⟩
  | conn =>
    simp only [init_mcp_tools_step] at hstep
    cases o with
    | ok tools stack =>
      simp only [Option.some.injEq, Prod.mk.injEq] at hstep
      obtain ⟨hgs, _⟩ := hstep
      subst hgs
      exact ⟨rfl, rfl⟩
    | err =>
      simp only [Option.some.injEq, Prod.mk.injEq] at hstep
      obtain ⟨hgs, _⟩ := hstep
      subst hgs
      exact ⟨hi, rfl⟩
  | done r => simp only [init_mcp_tools_step] at hstep; exact absurd hstep (by simp)

theorem reach_after_ready {c c' : Config} (h : Reach c c')
    (hi : c.gs.inited = true) :
    c'.gs.inited = true ∧ c'.gs.attempts = c.gs.attempts := by
  induction h with
  | refl => exact ⟨hi, rfl⟩
  | tail _ hs ih =>
    obtain ⟨hin, hat⟩ := ih
    obtain ⟨hin2, hat2⟩ := step_after_ready hs hin
    exact ⟨hin2, hat2.trans hat⟩

/-- C1 counterexample. Run the guard solo with a failing connection: the
attempt fails, yet `_initialized` is `False` (not "initialized with empty
tools"), and a subsequent call of `initialize_mcp_tools_async` commits a
second connection attempt (reaches `Loc.conn`, ghost counter 2), while
`check_news_researcher_tools` schedules a fresh initialization and returns
the retry message — refuting both parts of the claim at a concrete input. -/
theorem c1_counterexample :
    init_mcp_tools_step initGS 0 Loc.start ConnOutcome.err = some (gsA, Loc.conn)
  ∧ init_mcp_tools_step gsA 0 Loc.conn ConnOutcome.err = some (gsB, Loc.done none)
  ∧ gsB.inited = false ∧ gsB.in_progress = false
  ∧ init_mcp_tools_step gsB 1 Loc.start ConnOutcome.err = some (gsC, Loc.conn)
  ∧ gsC.attempts = 2
  ∧ (check_news_researcher_tools researcherName gsB).spawned = true
  ∧ (check_news_researcher_tools researcherName gsB).response
      = some CannedResponse.retryMsg :=
  ⟨rfl, rfl, rfl, rfl, rfl, rfl, rfl, rfl⟩

/-- C1 (amended). After a failed connection attempt the globals are NOT
"initialized with empty tools": `_initialized` stays as it was (`False`),
`_initialization_in_progress` is reset, and `_mcp_tools` becomes `[]`.
Consequently the failure is not terminal: the next call of
`initialize_mcp_tools_async` (from any not-yet-initialized state with the
lock free) commits a new check-then-set and starts a new connection attempt,
and `check_news_researcher_tools` schedules a new background initialization
and returns the retry message rather than the degraded-service message. -/
theorem c1_amended (gs : GState) (tid tid2 : Nat) (o : ConnOutcome)
    (hin : gs.inited = false) (hlock : gs.lock = none) :
    init_mcp_tools_step gs tid Loc.conn ConnOutcome.err
      = some ({ gs with mcp_tools := some [], in_progress := false }, Loc.done none)
  ∧ init_mcp_tools_step { gs with mcp_tools := some [], in_progress := false }
        tid2 Loc.start o
      = some ({ gs with mcp_tools := some [], in_progress := true,
                        attempts := gs.attempts + 1 }, Loc.conn)
  ∧ (check_news_researcher_tools researcherName
        { gs with mcp_tools := some [], in_progress := false }).spawned = true
  ∧ (check_news_researcher_tools researcherName
        { gs with mcp_tools := some [], in_progress := false }).response
      = some CannedResponse.retryMsg := by
  refine ⟨rfl, ?_, ?_, ?_⟩
  · simp [init_mcp_tools_step, hin, hlock]
  · simp [check_news_researcher_tools, hin]
  · simp [check_news_researcher_tools, hin]

/-- Witness for C1 (amended) at the initial globals. -/
theorem c1_amended_witness :
    init_mcp_tools_step initGS 0 Loc.conn ConnOutcome.err
      = some ({ initGS with mcp_tools := some [], in_progress := false }, Loc.done none)
  ∧ init_mcp_tools_step { initGS with mcp_tools := some [], in_progress := false }
        1 Loc.start ConnOutcome.err
      = some ({ initGS with mcp_tools := some [], in_progress := true,
                            attempts := initGS.attempts + 1 }, Loc.conn)
  ∧ (check_news_researcher_tools researcherName
        { initGS with mcp_tools := some [], in_progress := false }).spawned = true
  ∧ (check_news_researcher_tools researcherName
        { initGS with mcp_tools := some [], in_progress := false }).response
      = some CannedResponse.retryMsg :=
  c1_amended initGS 0 1 ConnOutcome.err rfl rfl

/-- C2 counterexample. Two concurrent callers, both starting from the
uninitialized globals: caller 0 wins the race and its attempt fails; caller 1
then commits a second check-then-set and starts a second connection attempt.
The reachable configuration has ghost attempt counter 2 although both tasks
existed from the start, refuting "exactly one attempt is made in total
regardless of N". -/
theorem c2_counterexample :
    Reach { gs := initGS, tasks := [(0, Loc.start), (1, Loc.start)] }
          { gs := gsC, tasks := [(0, Loc.done none), (1, Loc.conn)] }
  ∧ gsC.attempts = 2 ∧ initGS.attempts = 0 := by
  refine ⟨?_, rfl, rfl⟩
  have s1 : Step { gs := initGS, tasks := [(0, Loc.start), (1, Loc.start)] }
                 { gs := gsA, tasks := [(0, Loc.conn), (1, Loc.start)] } :=
    Step.of_eq 0 Loc.start ConnOutcome.err gsA Loc.conn rfl rfl rfl
  have s2 : Step { gs := gsA, tasks := [(0, Loc.conn), (1, Loc.start)] }
                 { gs := gsB, tasks := [(0, Loc.done none), (1, Loc.start)] } :=
    Step.of_eq 0 Loc.conn ConnOutcome.err gsB (Loc.done none) rfl rfl rfl
  have s3 : Step { gs := gsB, tasks := [(0, Loc.done none), (1, Loc.start)] }
                 { gs := gsC, tasks := [(0, Loc.done none), (1, Loc.conn)] } :=
    Step.of_eq 1 Loc.start ConnOutcome.err gsC Loc.conn rfl rfl rfl
  exact Relation.ReflTransGen.head s1
    (Relation.ReflTransGen.head s2 (Relation.ReflTransGen.single s3))

/-- C2 (amended). For any number of concurrent callers started from the
uninitialized module state, at most one connection attempt is in flight at
any time (at most one task is suspended at the `MCPToolset.from_server`
call), and once an attempt has succeeded (`_initialized` set) no further
attempt is ever started (the ghost attempt counter stays constant).  The
original "exactly one attempt in total regardless of N" does not hold when
an attempt fails: a later caller then starts a new attempt
(`c2_counterexample`). -/
theorem c2_amended :
    (∀ (ts : Tasks) (c : Config), (∀ p ∈ ts, p.2 = Loc.start) →
        Reach { gs := initGS, tasks := ts } c → AtMostOneConn c)
  ∧ (∀ (c c' : Config), Reach c c' → c.gs.inited = true →
        c'.gs.attempts = c.gs.attempts) := by
  constructor
  · intro ts c hstart hr
    have h1 : ConnImpliesFlag { gs := initGS, tasks := ts } := by
      intro p hp hpc
      rw [hstart p hp] at hpc
      simp at hpc
    have h2 : AtMostOneConn { gs := initGS, tasks := ts } := by
      intro p hp q hq hpc _
      rw [hstart p hp] at hpc
      simp at hpc
    exact (reach_inv hr h1 h2).2
  · intro c c' hr hi
    exact (reach_after_ready hr hi).2

/-- Witness for C2 (amended): two fresh callers satisfy the invariant, and a
step taken from a successfully initialized state starts no new attempt. -/
theorem c2_amended_witness :
    AtMostOneConn { gs := initGS, tasks := [(0, Loc.start), (1, Loc.start)] }
  ∧ ({ gs := gsReady, tasks := [(0, Loc.done gsReady.mcp_tools)] } : Config).gs.attempts
      = ({ gs := gsReady, tasks := [(0, Loc.start)] } : Config).gs.attempts :=
  ⟨c2_amended.1 _ _ (by decide) Relation.ReflTransGen.refl,
   c2_amended.2 { gs := gsReady, tasks := [(0, Loc.start)] }
     { gs := gsReady, tasks := [(0, Loc.done gsReady.mcp_tools)] }
     (Relation.ReflTransGen.single
       (Step.of_eq 0 Loc.start ConnOutcome.err gsReady (Loc.done gsReady.mcp_tools)
         rfl rfl rfl)) rfl⟩

/-- C3 (confirmed). After a successful initialization (`_initialized` true),
any call of `initialize_mcp_tools_async` returns on the unlocked fast path:
it returns exactly the cached `_mcp_tools` value, leaves every global
unchanged (the resulting state is the very same `gs`, so in particular the
ghost attempt counter is unchanged — no new connection attempt), and
terminates immediately (`Loc.done`). -/
theorem c3_cached_stable (gs : GState) (tid : Nat) (o : ConnOutcome)
    (h : gs.inited = true) :
    init_mcp_tools_step gs tid Loc.start o = some (gs, Loc.done gs.mcp_tools) := by
  simp [init_mcp_tools_step, h]

/-- Witness for C3 at a ready state caching three tools. -/
theorem c3_cached_stable_witness :
    init_mcp_tools_step gsReady 5 Loc.start ConnOutcome.err
      = some (gsReady, Loc.done gsReady.mcp_tools) :=
  c3_cached_stable gsReady 5 ConnOutcome.err rfl

/-- C4 (confirmed). When `check_news_researcher_tools` runs for the
`news_researcher` stage with neither `_initialized` nor
`_initialization_in_progress` set, it schedules `initialize_mcp_tools_async`
as a fire-and-forget task (`spawned = true`) and returns the non-null canned
retry `LlmResponse`, leaving the globals unchanged — so the stage does not
execute this turn. -/
theorem c4_uninit_schedules (gs : GState) (h1 : gs.inited = false)
    (h2 : gs.in_progress = false) :
    check_news_researcher_tools researcherName gs
      = { response := some CannedResponse.retryMsg, spawned := true, gs := gs } := by
  simp [check_news_researcher_tools, h1, h2]

/-- Witness for C4 at the module-load state. -/
theorem c4_uninit_schedules_witness :
    check_news_researcher_tools researcherName initGS
      = { response := some CannedResponse.retryMsg, spawned := true, gs := initGS } :=
  c4_uninit_schedules initGS rfl rfl

/-- C5 (confirmed). When `check_news_researcher_tools` runs for the
`news_researcher` stage while initialization is in progress, it returns the
"please wait" canned response, schedules nothing (`spawned = false`), and the
resulting globals are the very same state `gs` — in particular the lock
field, the flags, `_mcp_tools` and `_exit_stack` are untouched (the function
body never touches `_init_lock` at all). -/
theorem c5_wait_no_side_effects (gs : GState) (h : gs.in_progress = true) :
    check_news_researcher_tools researcherName gs
      = { response := some CannedResponse.waitMsg, spawned := false, gs := gs } := by
  simp [check_news_researcher_tools, h]

/-- Witness for C5 at the state with an attempt in flight. -/
theorem c5_wait_no_side_effects_witness :
    check_news_researcher_tools researcherName gsA
      = { response := some CannedResponse.waitMsg, spawned := false, gs := gsA } :=
  c5_wait_no_side_effects gsA rfl

/-- C6 (confirmed). When `check_news_researcher_tools` runs for the
`news_researcher` stage in the initialized state (the `Ready` abstraction:
`_initialized` true, `_initialization_in_progress` false): with a non-empty
cached tool sequence it returns no override (`response = none`, the stage
executes normally), and with an empty (or `None`) tool sequence it returns
the "degraded / check logs" canned response, in both cases with no scheduling
and no state change. -/
theorem c6_ready_branches (gs : GState) (h1 : gs.inited = true)
    (h2 : gs.in_progress = false) :
    (toolsFalsy gs.mcp_tools = false →
      check_news_researcher_tools researcherName gs
        = { response := none, spawned := false, gs := gs })
  ∧ (toolsFalsy gs.mcp_tools = true →
      check_news_researcher_tools researcherName gs
        = { response := some CannedResponse.degradedMsg, spawned := false, gs := gs }) := by
  constructor <;> intro ht <;> simp [check_news_researcher_tools, h1, h2, ht]

/-- Witness for C6 at a ready state with three cached tools. -/
theorem c6_ready_branches_witness :
    check_news_researcher_tools researcherName gsReady
      = { response := none, spawned := false, gs := gsReady } :=
  (c6_ready_branches gsReady rfl rfl).1 rfl

/-- C7 counterexample. Three concurrent callers: task 0 wins the race and is
suspended at the connection call; task 1 observed the in-progress flag and is
polling it while still holding `_init_lock` (the poll loop is inside the
`with _init_lock:` block); task 2 now has no enabled step — it is blocked on
the mutual-exclusion lock itself while the connection attempt is in flight,
refuting "no caller is ever blocked on the mutual-exclusion lock itself". -/
theorem c7_counterexample :
    Reach { gs := initGS, tasks := [(0, Loc.start), (1, Loc.start), (2, Loc.start)] }
          { gs := { gsA with lock := some 1 },
            tasks := [(0, Loc.conn), (1, Loc.poll), (2, Loc.start)] }
  ∧ getLoc [(0, Loc.conn), (1, Loc.poll), (2, Loc.start)] 0 = some Loc.conn
  ∧ ({ gsA with lock := some 1 } : GState).in_progress = true
  ∧ getLoc [(0, Loc.conn), (1, Loc.poll), (2, Loc.start)] 2 = some Loc.start
  ∧ init_mcp_tools_step { gsA with lock := some 1 } 2 Loc.start ConnOutcome.err
      = none := by
  refine ⟨?_, rfl, rfl, rfl, rfl⟩
  have s1 : Step { gs := initGS, tasks := [(0, Loc.start), (1, Loc.start), (2, Loc.start)] }
                 { gs := gsA, tasks := [(0, Loc.conn), (1, Loc.start), (2, Loc.start)] } :=
    Step.of_eq 0 Loc.start ConnOutcome.err gsA Loc.conn rfl rfl rfl
  have s2 : Step { gs := gsA, tasks := [(0, Loc.conn), (1, Loc.start), (2, Loc.start)] }
                 { gs := { gsA with lock := some 1 },
                   tasks := [(0, Loc.conn), (1, Loc.poll), (2, Loc.start)] } :=
    Step.of_eq 1 Loc.start ConnOutcome.err { gsA with lock := some 1 } Loc.poll rfl rfl rfl
  exact Relation.ReflTransGen.head s1 (Relation.ReflTransGen.single s2)

/-- C7 (amended). The caller that wins the race does re-check both flags
under the lock before committing (the step to the connection call is only
possible from `_initialized = False`, `_initialization_in_progress = False`,
lock free), sets the in-progress flag and releases the lock before the
connection call starts (after the step the lock is free and the flag set).
However, racing callers are not only logically blocked on the in-progress
flag: a waiter polls the flag while holding `_init_lock`, so a further caller
can be blocked on the lock itself during the connection attempt
(`c7_counterexample`). -/
theorem c7_amended (gs : GState) (tid : Nat) (o : ConnOutcome) (gs' : GState)
    (h : init_mcp_tools_step gs tid Loc.start o = some (gs', Loc.conn)) :
    gs.inited = false ∧ gs.in_progress = false ∧ gs.lock = none
  ∧ gs' = { gs with in_progress := true, attempts := gs.attempts + 1 }
  ∧ gs'.lock = none ∧ gs'.in_progress = true := by
  simp only [init_mcp_tools_step] at h
  by_cases hi : gs.inited = true
  · rw [if_pos hi] at h
    simp at h
  · rw [if_neg hi] at h
    cases hl : gs.lock with
    | some k => rw [hl] at h; simp at h
    | none =>
      rw [hl, if_neg hi] at h
      by_cases hp : gs.in_progress = true
      · rw [if_pos hp] at h; simp at h
      · rw [if_neg hp] at h
        simp only [Option.some.injEq, Prod.mk.injEq] at h
        obtain ⟨hgs, -⟩ := h
        subst hgs
        simp only [Bool.not_eq_true] at hi hp
        exact ⟨hi, hp, rfl, rfl, rfl, rfl⟩

/-- Witness for C7 (amended): the winning step from the initial globals. -/
theorem c7_amended_witness :
    initGS.inited = false ∧ initGS.in_progress = false ∧ initGS.lock = none
  ∧ gsA = { initGS with in_progress := true, attempts := initGS.attempts + 1 }
  ∧ gsA.lock = none ∧ gsA.in_progress = true :=
  c7_amended initGS 0 ConnOutcome.err gsA rfl

/-- C8 (confirmed). `cleanup_mcp` is idempotent: whatever the starting
`_exit_stack`, loop situation and `aclose` outcome, the first invocation
leaves the handle cleared, so the second invocation performs no teardown and
returns with the handle still cleared; and on any non-`None` handle the first
invocation performs the teardown and clears the handle in all outcomes
(`finally:`), including a raising `aclose`. -/
theorem c8_cleanup_idempotent (s : Option ExitStack) (l1 l2 : Bool)
    (o1 o2 : AcloseOutcome) (h : ExitStack) :
    cleanup_mcp (cleanup_mcp s l1 o1).2 l2 o2 = (false, none)
  ∧ cleanup_mcp (some h) l1 o1 = (true, none) := by
  constructor
  · cases s <;> rfl
  · rfl

/-- C9 (confirmed). A task suspended at the connection call resets
`_initialization_in_progress` in the same atomic step in which it returns,
for both outcomes (the reset is in the `finally:` block); and once the flag
is down, a waiter polling at `await asyncio.sleep(0.1)` exits its loop and
returns (with the cached `_mcp_tools`) on its next step — the in-progress
state never outlives a single attempt. -/
theorem c9_flag_cleared (gs : GState) (tid : Nat) (o : ConnOutcome)
    (tools : List Tool) (stack : ExitStack) :
    ((init_mcp_tools_step gs tid Loc.conn (ConnOutcome.ok tools stack)).map
        (fun r => r.1.in_progress) = some false)
  ∧ ((init_mcp_tools_step gs tid Loc.conn ConnOutcome.err).map
        (fun r => r.1.in_progress) = some false)
  ∧ (gs.in_progress = false →
      init_mcp_tools_step gs tid Loc.poll o
        = some ({ gs with lock := none }, Loc.done gs.mcp_tools)) := by
  refine ⟨rfl, rfl, fun hp => ?_⟩
  simp [init_mcp_tools_step, hp]

/-- Witness for C9: a waiter completes right after the failed attempt. -/
theorem c9_flag_cleared_witness :
    init_mcp_tools_step gsB 1 Loc.poll ConnOutcome.err
      = some ({ gsB with lock := none }, Loc.done gsB.mcp_tools) :=
  (c9_flag_cleared gsB 1 ConnOutcome.err [] 0).2.2 rfl

/-- C10 (confirmed). When the connection attempt raises, the completing step
sets the global `_mcp_tools` to the empty list but the initiating call itself
returns `None` (`Loc.done none`), and `_initialized` is left unchanged
(`False`); a waiter that then leaves its poll loop returns the global
`_mcp_tools`, i.e. the empty list (`Loc.done (some [])`) — so the initiator
and the waiter of the same failed attempt observe different results. -/
theorem c10_failure_two_observers (gs : GState) (tid tid2 : Nat) (o : ConnOutcome) :
    init_mcp_tools_step gs tid Loc.conn ConnOutcome.err
      = some ({ gs with mcp_tools := some [], in_progress := false }, Loc.done none)
  ∧ ({ gs with mcp_tools := some [], in_progress := false } : GState).inited = gs.inited
  ∧ init_mcp_tools_step { gs with mcp_tools := some [], in_progress := false }
        tid2 Loc.poll o
      = some ({ gs with mcp_tools := some [], in_progress := false, lock := none },
              Loc.done (some []))
  ∧ Loc.done (none : Option (List Tool)) ≠ Loc.done (some []) := by
  refine ⟨rfl, rfl, rfl, by simp⟩
